import Mathlib

/-!
Verification development for the DevLearn Pro backend (`src/main.py`).

The file shallowly embeds the handlers of `main.py`:
* `serialize_doc` over association-list documents (`Doc`),
* the naive code converter `convert_code` with Python-style
  `str.replace` / `str.strip` / `str.lower` modelled on character lists,
* the rank derivation of `get_progress`,
* the auth handlers `signup` / `login` and the progress handlers over an
  explicit store state (the store adapter `database.py` ships separately
  from `main.py`; its `create_document` / `get_documents` contract is
  modelled from the spec, see `get_documents_model`).

Python strings are modelled over their ASCII fragment: `str.lower`,
`str.strip`, `str.title` and `str.isalpha` act on ASCII characters the way
`Char.toLower`, `Char.isWhitespace`, `Char.toUpper`, `Char.isAlpha` do.
-/

set_option autoImplicit false

namespace DevLearn

/-- A stored field value: the value shapes `main.py` actually puts in or
reads from documents.  `oid` is a BSON ObjectId (stringified by `oid_str`),
`dt` a datetime carried together with its ISO-8601 rendering
(`isoformat()`), the rest are JSON scalars. -/
inductive Value where
  | null
  | boolV (b : Bool)
  | intV (n : Int)
  | str (s : String)
  | oid (n : Nat)
  | dt (iso : String)
  deriving DecidableEq, Repr

/-- A document: a Python dict as an ordered association list. -/
abbrev Doc := List (String × Value)

/-- Python truthiness of a stored value (`if d.get("_id"):`). -/
def truthy : Value → Bool
  | .null => false
  | .boolV b => b
  | .intV n => n != 0
  | .str s => s ≠ ""
  | .oid _ => true
  | .dt _ => true

/-- `oid_str(obj)` of `main.py`: `str(obj)` with an ObjectId fast path. -/
def oid_str : Value → String
  | .null => "None"
  | .boolV b => if b then "True" else "False"
  | .intV n => toString n
  | .str s => s
  | .oid n => toString n
  | .dt iso => iso

/-- `d.get(k)`: first value bound to key `k`, if any. -/
def getVal (d : Doc) (k : String) : Option Value :=
  (d.find? (fun p => p.1 = k)).map (fun p => p.2)

/-- Key-membership (`k in d`). -/
def hasKey (d : Doc) (k : String) : Bool :=
  (getVal d k).isSome

/-- `d.pop(k)`: the dict without the binding of `k`. -/
def popKey (d : Doc) (k : String) : Doc :=
  d.filter (fun p => p.1 ≠ k)

/-- `d[k] = v`: replace the binding of `k` in place, else append it. -/
def setKey (d : Doc) (k : String) (v : Value) : Doc :=
  if d.any (fun p => p.1 = k) then
    d.map (fun p => if p.1 = k then (k, v) else p)
  else
    d ++ [(k, v)]

/-- The datetime-to-isoformat pass of `serialize_doc`
(`if isinstance(v, (datetime, date)): d[k] = v.isoformat()`). -/
def convertDT : Value → Value
  | .dt iso => .str iso
  | v => v

/-- `serialize_doc` of `main.py`: return a falsy (empty) document
unchanged; pop a truthy `_id` and store its string form under `id`;
convert every datetime field to its isoformat string. -/
def serialize_doc (doc : Doc) : Doc :=
  if doc.isEmpty then doc
  else
    let d :=
      match getVal doc "_id" with
      | some v =>
          if truthy v then setKey (popKey doc "_id") "id" (.str (oid_str v))
          else doc
      | none => doc
    d.map (fun p => (p.1, convertDT p.2))

/-! ### Python string primitives (ASCII fragment) -/

/-- `s.lower()`. -/
def pyLower (s : String) : String :=
  ⟨s.data.map Char.toLower⟩

/-- `s.strip()`: drop leading and trailing whitespace. -/
def pyStrip (s : String) : String :=
  ⟨(((s.data.dropWhile Char.isWhitespace).reverse.dropWhile
      Char.isWhitespace).reverse)⟩

/-- Worker for `str.replace`: replaces every non-overlapping occurrence of
`pat` left to right.  The fuel argument is instantiated with the length of
the subject, which bounds the recursion depth since every step consumes at
least one character; an empty pattern never occurs in `main.py` and is
returned unchanged. -/
def replaceAux (pat rep : List Char) : Nat → List Char → List Char
  | _, [] => []
  | 0, s => s
  | fuel + 1, c :: rest =>
      if pat ≠ [] ∧ pat.isPrefixOf (c :: rest) then
        rep ++ replaceAux pat rep fuel ((c :: rest).drop pat.length)
      else
        c :: replaceAux pat rep fuel rest

/-- `s.replace(pat, rep)`. -/
def pyReplace (s pat rep : String) : String :=
  ⟨replaceAux pat.data rep.data s.data.length s.data⟩

/-- Worker for `str.title`: an alphabetic character is uppercased after a
non-alphabetic character (or at the start) and lowercased otherwise. -/
def titleAux : List Char → Bool → List Char
  | [], _ => []
  | c :: rest, prevAlpha =>
      (if c.isAlpha then (if prevAlpha then c.toLower else c.toUpper) else c)
        :: titleAux rest c.isAlpha

/-- `s.title()`. -/
def pyTitle (s : String) : String :=
  ⟨titleAux s.data false⟩

/-! ### Code converter (`POST /api/ai/convert`) -/

/-- Request model `ConvertRequest` of `main.py`. -/
structure ConvertRequest where
  source_language : String
  target_language : String
  code : String
  deriving DecidableEq, Repr

/-- The `{"converted": ..., "notes": ...}` response of `convert_code`. -/
structure ConvertResponse where
  converted : String
  notes : String
  deriving DecidableEq, Repr

/-- `convert_code` of `main.py`: lowercase both language names, strip the
code, return it for equal languages, apply the fixed replacement chains
for the two supported pairs, otherwise the generic note.  The handler locals src, tgt and code are inlined. -/
def convert_code (req : ConvertRequest) : ConvertResponse :=
  if pyLower req.source_language = pyLower req.target_language then
    { converted := pyStrip req.code,
      notes := "Source and target languages are the same." }
  else if (pyLower req.source_language = "javascript" ∨
            pyLower req.source_language = "js") ∧
          pyLower req.target_language = "python" then
    { converted :=
        pyReplace (pyReplace (pyReplace (pyReplace (pyReplace
          (pyStrip req.code) "console.log" "print") "===" "==")
          "!==" "!=") "true" "True") "false" "False",
      notes := "Converted console.log to print and booleans to Python style." }
  else if pyLower req.source_language = "python" ∧
          (pyLower req.target_language = "javascript" ∨
            pyLower req.target_language = "js") then
    { converted :=
        pyReplace (pyReplace (pyReplace
          (pyStrip req.code) "print(" "console.log(") "True" "true")
          "False" "false",
      notes := "Converted print to console.log and booleans to JS style." }
  else
    { converted := pyStrip req.code,
      notes := "Generic transformation applied. Manual review recommended." }

/-! ### AI mentor (`POST /api/ai/mentor`) -/

/-- The `Literal["beginner", "intermediate", "advanced"]` level enum. -/
inductive MentorLevel where
  | beginner
  | intermediate
  | advanced
  deriving DecidableEq, Repr

/-- The string a `MentorLevel` interpolates as in the f-string. -/
def levelStr : MentorLevel → String
  | .beginner => "beginner"
  | .intermediate => "intermediate"
  | .advanced => "advanced"

/-- Request model `MentorRequest` of `main.py`. -/
structure MentorRequest where
  question : String
  language : Option String
  level : Option MentorLevel
  deriving DecidableEq, Repr

/-- The `tips` dict of `ai_mentor`, keyed by level. -/
def tipsFor : MentorLevel → List String
  | .beginner =>
      ["Break problems into small steps and write pseudo-code first.",
       "Practice daily: tiny consistent sessions beat long rare ones.",
       "Read errors carefully; they often tell you exactly what to fix."]
  | .intermediate =>
      ["Write tests for edge cases before refactoring.",
       "Profile performance before optimizing.",
       "Learn your debugger and step through code."]
  | .advanced =>
      ["Design for maintainability; prefer clarity over cleverness.",
       "Document assumptions and invariants in code.",
       "Benchmark with realistic data and environments."]

/-- `ai_mentor` of `main.py` (the `answer` field of its response).
`req.language or "programming"` treats an empty string as absent; the
level defaults to beginner both for `None` (`req.level or "beginner"`)
and in the `tips.get(level, tips["beginner"])` lookup, which the enum
makes total. -/
def ai_mentor (req : MentorRequest) : String :=
  let lang := pyTitle (match req.language with
    | some l => if l = "" then "programming" else l
    | none => "programming")
  let level := req.level.getD .beginner
  "Here are some " ++ levelStr level ++ " tips for " ++ lang ++ ":\n- " ++
    String.intercalate "\n- " (tipsFor level)

/-! ### Rank derivation (`GET /api/progress/{user_id}`) -/

/-- The rank threshold chain of `get_progress`. -/
def rank_of_count (c : Nat) : String :=
  if c ≥ 50 then "🏆 Platinum"
  else if c ≥ 25 then "🥇 Gold"
  else if c ≥ 10 then "🥈 Silver"
  else if c ≥ 3 then "🥉 Bronze"
  else "🎓 Newbie"

/-- Height of a rank label in the ladder (unknown strings sit at 0),
used to state monotonicity of the derived rank. -/
def rankValue (r : String) : Nat :=
  if r = "🏆 Platinum" then 4
  else if r = "🥇 Gold" then 3
  else if r = "🥈 Silver" then 2
  else if r = "🥉 Bronze" then 1
  else 0

/-! ### Store state and auth handlers -/

/-- A stored `user` document: the exact fields `signup` inserts.  The
`name` field is `Option`al because the handlers read it with
`existing.get("name", default)`.  Timestamps are opaque ticks. -/
structure UserDoc where
  oid : Nat
  name : Option String
  email : String
  provider : String
  created_at : Nat
  updated_at : Nat
  deriving DecidableEq, Repr

/-- A stored `progress` document: `ProgressUpdate.model_dump()` plus the
store-assigned `_id`. -/
structure ProgressDoc where
  oid : Nat
  user_id : String
  course : String
  lesson : String
  completed : Bool
  deriving DecidableEq, Repr

/-- The external document store: the two collections the claims touch,
plus the store's fresh-identifier counter. -/
structure StoreState where
  users : List UserDoc
  progress : List ProgressDoc
  nextId : Nat
  deriving DecidableEq, Repr

/-- Request model `SignupRequest` (provider kept as its literal string). -/
structure SignupRequest where
  name : String
  email : String
  provider : String
  deriving DecidableEq, Repr

/-- Response model `AuthResponse`. -/
structure AuthResponse where
  user_id : String
  name : String
  email : String
  deriving DecidableEq, Repr

/-- An `HTTPException(status_code, detail)`. -/
structure HTTPError where
  status : Nat
  detail : String
  deriving DecidableEq, Repr

/-- `db["user"].find_one({"email": email})`: first stored user whose
email field matches exactly. -/
def find_one_user (users : List UserDoc) (email : String) : Option UserDoc :=
  users.find? (fun u => u.email = email)

/-- `signup` of `main.py`: look up by email; on a hit return the existing
record (name falling back to the submitted one only if the record has no
name field); on a miss insert a fresh user document and return it.  `now`
stands for `datetime.utcnow()`. -/
def signup (st : StoreState) (now : Nat) (payload : SignupRequest) :
    StoreState × AuthResponse :=
  match find_one_user st.users payload.email with
  | some existing =>
      (st, { user_id := toString existing.oid,
             name := existing.name.getD payload.name,
             email := payload.email })
  | none =>
      let user_doc : UserDoc :=
        { oid := st.nextId, name := some payload.name, email := payload.email,
          provider := payload.provider, created_at := now, updated_at := now }
      ({ st with users := st.users ++ [user_doc], nextId := st.nextId + 1 },
       { user_id := toString st.nextId, name := payload.name,
         email := payload.email })

/-- `login` of `main.py`: 404 on a missing email, otherwise the stored
record (name falling back to `"User"`). -/
def login (st : StoreState) (email : String) : Except HTTPError AuthResponse :=
  match find_one_user st.users email with
  | none => .error { status := 404, detail := "User not found. Please sign up." }
  | some existing =>
      .ok { user_id := toString existing.oid,
            name := existing.name.getD "User", email := email }

/-! ### Progress handlers -/

/-- Request model `ProgressUpdate`. -/
structure ProgressUpdate where
  user_id : String
  course : String
  lesson : String
  completed : Bool
  deriving DecidableEq, Repr

/-- Modelled from the spec: `get_documents` lives in `database.py`, which
ships separately from `main.py`; per the adapter contract it is
`find(collection, filter, limit) -> ordered sequence of ≤limit documents
matching filter`, here specialized to the progress collection filtered by
`{"user_id": user_id}` in store-native (insertion) order. -/
def get_documents_progress (progress : List ProgressDoc) (user_id : String)
    (limit : Nat) : List ProgressDoc :=
  (progress.filter (fun p => p.user_id = user_id)).take limit

/-- Modelled from the spec: `create_document` of `database.py` is
`insert(collection, document) -> identifier`; the store appends the
document and assigns it a fresh identifier. -/
def create_document_progress (st : StoreState) (doc : ProgressUpdate) :
    StoreState × Nat :=
  ({ st with
      progress := st.progress ++
        [{ oid := st.nextId, user_id := doc.user_id, course := doc.course,
           lesson := doc.lesson, completed := doc.completed }],
      nextId := st.nextId + 1 },
   st.nextId)

/-- The dict shape of a stored progress document, for `serialize_doc`. -/
def progressToDoc (p : ProgressDoc) : Doc :=
  [("_id", .oid p.oid), ("user_id", .str p.user_id), ("course", .str p.course),
   ("lesson", .str p.lesson), ("completed", .boolV p.completed)]

/-- The `{items, completed, rank}` response of `get_progress`. -/
structure ProgressSummary where
  items : List Doc
  completed : Nat
  rank : String
  deriving DecidableEq, Repr

/-- `get_progress` of `main.py`: read up to 500 progress documents for the
user, count the ones whose `completed` field is truthy (it is a Bool, so
truthiness is the field itself), derive the rank, serialize the items. -/
def get_progress (st : StoreState) (user_id : String) : ProgressSummary :=
  let items := get_documents_progress st.progress user_id 500
  let total_completed := items.countP (fun i => i.completed)
  { items := items.map (fun i => serialize_doc (progressToDoc i)),
    completed := total_completed,
    rank := rank_of_count total_completed }

/-- `update_progress` of `main.py`: insert the payload as a new document,
re-read it by its new identifier, return its serialized form. -/
def update_progress (st : StoreState) (payload : ProgressUpdate) :
    StoreState × Option Doc :=
  let res := create_document_progress st payload
  let saved := res.1.progress.find? (fun p => p.oid = res.2)
  (res.1, saved.map (fun p => serialize_doc (progressToDoc p)))

/-! ### Association-list lemmas for `serialize_doc` -/

/-- The field-wise datetime pass. -/
def dtPass (d : Doc) : Doc :=
  d.map (fun p => (p.1, convertDT p.2))

theorem convertDT_convertDT (v : Value) :
    convertDT (convertDT v) = convertDT v := by
  cases v <;> rfl

theorem convertDT_of_not_truthy {v : Value} (h : truthy v = false) :
    convertDT v = v := by
  cases v <;> simp_all [truthy, convertDT]

theorem truthy_convertDT_of_not_truthy {v : Value} (h : truthy v = false) :
    truthy (convertDT v) = false := by
  rw [convertDT_of_not_truthy h]; exact h

theorem dtPass_dtPass (d : Doc) : dtPass (dtPass d) = dtPass d := by
  induction d with
  | nil => rfl
  | cons p rest ih =>
      simp only [dtPass, List.map_cons, List.map_map] at *
      simp [convertDT_convertDT, ih]

theorem getVal_cons (p : String × Value) (rest : Doc) (k : String) :
    getVal (p :: rest) k = if p.1 = k then some p.2 else getVal rest k := by
  by_cases h : p.1 = k
  · rw [if_pos h]
    unfold getVal
    rw [List.find?_cons_of_pos _ (by simpa using h)]
    rfl
  · rw [if_neg h]
    unfold getVal
    rw [List.find?_cons_of_neg _ (by simpa using h)]

theorem getVal_append (a b : Doc) (k : String) :
    getVal (a ++ b) k = (getVal a k).or (getVal b k) := by
  unfold getVal
  rw [List.find?_append]
  cases List.find? (fun p => decide (p.1 = k)) a <;> simp

theorem getVal_eq_none_of_not_any (d : Doc) (k : String)
    (ha : ¬ d.any (fun p => p.1 = k) = true) : getVal d k = none := by
  induction d with
  | nil => rfl
  | cons p rest ih =>
      simp only [List.any_cons, Bool.or_eq_true, decide_eq_true_eq,
        not_or] at ha
      rw [getVal_cons, if_neg ha.1]
      exact ih (by simpa using ha.2)

theorem getVal_dtPass (d : Doc) (k : String) :
    getVal (dtPass d) k = (getVal d k).map convertDT := by
  induction d with
  | nil => rfl
  | cons p rest ih =>
      have hd : dtPass (p :: rest) = (p.1, convertDT p.2) :: dtPass rest := rfl
      rw [hd, getVal_cons, getVal_cons]
      by_cases h : p.1 = k
      · simp [h]
      · simp only [if_neg h]
        exact ih

theorem getVal_popKey_self (d : Doc) (k : String) :
    getVal (popKey d k) k = none := by
  induction d with
  | nil => rfl
  | cons p rest ih =>
      by_cases h : p.1 = k
      · simpa [popKey, List.filter_cons, h] using ih
      · have hd : popKey (p :: rest) k = p :: popKey rest k := by
          simp [popKey, List.filter_cons, h]
        rw [hd, getVal_cons, if_neg h]
        exact ih

theorem getVal_setKey_self (d : Doc) (k : String) (v : Value) :
    getVal (setKey d k v) k = some v := by
  unfold setKey
  by_cases ha : d.any (fun p => p.1 = k) = true
  · rw [if_pos ha]
    induction d with
    | nil => simp at ha
    | cons p rest ih =>
        rw [List.map_cons]
        by_cases h : p.1 = k
        · rw [if_pos h, getVal_cons]
          simp
        · rw [if_neg h, getVal_cons, if_neg h]
          exact ih (by simpa [h] using ha)
  · rw [if_neg ha, getVal_append, getVal_eq_none_of_not_any _ _ ha,
      getVal_cons]
    simp

theorem getVal_setKey_ne (d : Doc) (k k' : String) (v : Value)
    (hk : k' ≠ k) : getVal (setKey d k v) k' = getVal d k' := by
  have hkk : ¬ (k = k') := fun hc => hk hc.symm
  unfold setKey
  by_cases ha : d.any (fun p => p.1 = k) = true
  · rw [if_pos ha]
    clear ha
    induction d with
    | nil => rfl
    | cons p rest ih =>
        rw [List.map_cons, getVal_cons]
        by_cases h : p.1 = k
        · have h2 : ¬ (p.1 = k') := by rw [h]; exact hkk
          rw [if_pos h, getVal_cons, if_neg h2]
          simp only [if_neg hkk]
          exact ih
        · rw [if_neg h, getVal_cons]
          by_cases h2 : p.1 = k'
          · rw [if_pos h2, if_pos h2]
          · rw [if_neg h2, if_neg h2]
            exact ih
  · rw [if_neg ha, getVal_append]
    have h1 : getVal [(k, v)] k' = none := by
      rw [getVal_cons]
      simp [hkk, getVal]
    rw [h1]
    cases getVal d k' <;> rfl

/-- The `_id`-to-`id` rename step of `serialize_doc`, named for reasoning
(definitionally the `let d := ...` of the source). -/
def renameId (d : Doc) : Doc :=
  match getVal d "_id" with
  | some v =>
      if truthy v then setKey (popKey d "_id") "id" (.str (oid_str v))
      else d
  | none => d

theorem serialize_doc_of_ne_nil (d : Doc) (h : d ≠ []) :
    serialize_doc d = dtPass (renameId d) := by
  unfold serialize_doc
  rw [if_neg (by simpa [List.isEmpty_iff] using h)]
  rfl

theorem renameId_truthy {d : Doc} {v : Value}
    (hv : getVal d "_id" = some v) (ht : truthy v = true) :
    renameId d = setKey (popKey d "_id") "id" (.str (oid_str v)) := by
  simp [renameId, hv, ht]

theorem renameId_not_truthy {d : Doc} {v : Value}
    (hv : getVal d "_id" = some v) (ht : truthy v = false) :
    renameId d = d := by
  simp [renameId, hv, ht]

theorem renameId_none {d : Doc} (hv : getVal d "_id" = none) :
    renameId d = d := by
  simp [renameId, hv]

theorem setKey_ne_nil (d : Doc) (k : String) (v : Value) :
    setKey d k v ≠ [] := by
  unfold setKey
  by_cases ha : d.any (fun p => p.1 = k) = true
  · rw [if_pos ha]
    intro hc
    rcases d with _ | ⟨p, rest⟩
    · simp at ha
    · simp at hc
  · rw [if_neg ha]
    simp

theorem renameId_ne_nil (d : Doc) (h : d ≠ []) : renameId d ≠ [] := by
  unfold renameId
  split
  · split
    · exact setKey_ne_nil _ _ _
    · exact h
  · exact h

theorem dtPass_ne_nil (d : Doc) (h : d ≠ []) : dtPass d ≠ [] := by
  rcases d with _ | ⟨p, rest⟩
  · exact absurd rfl h
  · simp [dtPass]

/-- C3: serialize is idempotent — `serialize(serialize(d)) = serialize(d)`
for every document `d` — and an empty/absent input is returned unchanged
rather than raising an error. -/
theorem serialize_doc_idempotent :
    (∀ d : Doc, serialize_doc (serialize_doc d) = serialize_doc d) ∧
    serialize_doc ([] : Doc) = [] := by
  refine ⟨fun d => ?_, rfl⟩
  rcases eq_or_ne d [] with rfl | hd
  · rfl
  · rw [serialize_doc_of_ne_nil d hd]
    have he : dtPass (renameId d) ≠ [] := dtPass_ne_nil _ (renameId_ne_nil d hd)
    rw [serialize_doc_of_ne_nil _ he]
    cases hv : getVal d "_id" with
    | none =>
        rw [renameId_none hv]
        have h2 : getVal (dtPass d) "_id" = none := by
          rw [getVal_dtPass, hv]
          rfl
        rw [renameId_none h2, dtPass_dtPass]
    | some v =>
        by_cases ht : truthy v = true
        · rw [renameId_truthy hv ht]
          have h2 : getVal (dtPass (setKey (popKey d "_id") "id"
              (.str (oid_str v)))) "_id" = none := by
            rw [getVal_dtPass, getVal_setKey_ne _ _ _ _ (by decide),
              getVal_popKey_self]
            rfl
          rw [renameId_none h2, dtPass_dtPass]
        · have ht2 : truthy v = false := by simpa using ht
          rw [renameId_not_truthy hv ht2]
          have h2 : getVal (dtPass d) "_id" = some v := by
            rw [getVal_dtPass, hv]
            simp [convertDT_of_not_truthy ht2]
          rw [renameId_not_truthy h2 ht2, dtPass_dtPass]

/-- C10: a present-but-falsy `_id` is kept as is and no `id` field
appears, while a truthy `_id` is removed and replaced by the
string-valued `id` field. -/
theorem serialize_doc_id_rename (d : Doc) (v : Value)
    (hv : getVal d "_id" = some v) :
    (truthy v = false →
       getVal (serialize_doc d) "_id" = some v ∧
       hasKey (serialize_doc d) "id" = hasKey d "id") ∧
    (truthy v = true →
       getVal (serialize_doc d) "_id" = none ∧
       getVal (serialize_doc d) "id" = some (.str (oid_str v))) := by
  have hd : d ≠ [] := by
    intro hc
    subst hc
    simp [getVal] at hv
  rw [serialize_doc_of_ne_nil d hd]
  constructor
  · intro hf
    rw [renameId_not_truthy hv hf]
    constructor
    · rw [getVal_dtPass, hv]
      simp [convertDT_of_not_truthy hf]
    · unfold hasKey
      rw [getVal_dtPass]
      cases getVal d "id" <;> rfl
  · intro ht
    rw [renameId_truthy hv ht]
    constructor
    · rw [getVal_dtPass, getVal_setKey_ne _ _ _ _ (by decide),
        getVal_popKey_self]
      rfl
    · rw [getVal_dtPass, getVal_setKey_self]
      rfl

/-- Witness for C10 at concrete documents: a falsy `_id` (the empty
string) survives serialization, a truthy one (an ObjectId) is renamed. -/
theorem serialize_doc_id_rename_witness :
    getVal (serialize_doc [("_id", Value.str "")]) "_id" =
        some (Value.str "") ∧
    hasKey (serialize_doc [("_id", Value.str "")]) "id" =
        hasKey [("_id", Value.str "")] "id" ∧
    getVal (serialize_doc [("_id", Value.oid 5)]) "_id" = none ∧
    getVal (serialize_doc [("_id", Value.oid 5)]) "id" =
        some (Value.str "5") := by
  have h1 := (serialize_doc_id_rename [("_id", Value.str "")]
    (Value.str "") rfl).1 rfl
  have h2 := (serialize_doc_id_rename [("_id", Value.oid 5)]
    (Value.oid 5) rfl).2 rfl
  exact ⟨h1.1, h1.2, h2.1, h2.2.trans (by decide)⟩

/-! ### Converter theorems -/

/-- The js→python replacement chain of `convert_code`, in source order. -/
def jsToPyReplacements (code : String) : String :=
  pyReplace (pyReplace (pyReplace (pyReplace (pyReplace
    code "console.log" "print") "===" "==") "!==" "!=") "true" "True")
    "false" "False"

/-- The python→js replacement chain of `convert_code`, in source order. -/
def pyToJsReplacements (code : String) : String :=
  pyReplace (pyReplace (pyReplace
    code "print(" "console.log(") "True" "true") "False" "false"

/-- `convert_code` on an explicit request, projections reduced and the
two replacement chains folded into their named forms. -/
theorem convert_code_mk (s t c : String) :
    convert_code ⟨s, t, c⟩ =
      if pyLower s = pyLower t then
        { converted := pyStrip c,
          notes := "Source and target languages are the same." }
      else if (pyLower s = "javascript" ∨ pyLower s = "js") ∧
              pyLower t = "python" then
        { converted := jsToPyReplacements (pyStrip c),
          notes := "Converted console.log to print and booleans to Python style." }
      else if pyLower s = "python" ∧
              (pyLower t = "javascript" ∨ pyLower t = "js") then
        { converted := pyToJsReplacements (pyStrip c),
          notes := "Converted print to console.log and booleans to JS style." }
      else
        { converted := pyStrip c,
          notes := "Generic transformation applied. Manual review recommended." } :=
  rfl

/-- C2 counterexample: the handler strips the code, so with surrounding
whitespace the code is not returned unchanged —
`convert_code("Python", "python", " x ")` returns `"x"`, not `" x "`. -/
theorem convert_code_same_language_counterexample :
    (convert_code ⟨"Python", "python", " x "⟩).converted ≠ " x " := by
  decide

/-- C2 (amended): for case-insensitively equal language names the handler
returns the code stripped of leading/trailing whitespace (hence unchanged
exactly when it has none), with the no-conversion note. -/
theorem convert_code_same_language (X Y C : String)
    (h : pyLower X = pyLower Y) :
    convert_code ⟨X, Y, C⟩ =
      { converted := pyStrip C,
        notes := "Source and target languages are the same." } := by
  rw [convert_code_mk, if_pos h]

/-- Witness for C2 (amended) at a concrete whitespace-free input. -/
theorem convert_code_same_language_witness :
    convert_code ⟨"JS", "js", "let x = 1"⟩ =
      { converted := "let x = 1",
        notes := "Source and target languages are the same." } := by
  have h := convert_code_same_language "JS" "js" "let x = 1" (by decide)
  rw [h]
  decide

/-- C4 counterexample: the replacement chain is applied to the stripped
code, not to the submitted code string — on `" true "` the converter
yields `"True"`, not the whole-string replacement result `" True "`. -/
theorem convert_code_js_to_python_counterexample :
    (convert_code ⟨"javascript", "python", " true "⟩).converted ≠
      jsToPyReplacements " true " := by
  decide

/-- C4 (amended): for javascript/js → python the converted code is
exactly the fixed replacement sequence applied in source order to the
whitespace-stripped code — hence to the whole submitted code string
whenever it carries no surrounding whitespace — and the two spec
examples hold. -/
theorem convert_code_js_to_python (c : String) (h : pyStrip c = c) :
    (convert_code ⟨"javascript", "python", c⟩).converted =
        jsToPyReplacements c ∧
    (convert_code ⟨"js", "python", c⟩).converted = jsToPyReplacements c ∧
    (convert_code ⟨"javascript", "python", "console.log(true)"⟩).converted =
        "print(True)" ∧
    (convert_code ⟨"python", "javascript", "print(False)"⟩).converted =
        "console.log(false)" := by
  have h1 : ¬ (pyLower "javascript" = pyLower "python") := by decide
  have h2 : (pyLower "javascript" = "javascript" ∨
      pyLower "javascript" = "js") ∧ pyLower "python" = "python" := by decide
  have h3 : ¬ (pyLower "js" = pyLower "python") := by decide
  have h4 : (pyLower "js" = "javascript" ∨ pyLower "js" = "js") ∧
      pyLower "python" = "python" := by decide
  refine ⟨?_, ?_, by decide, by decide⟩
  · rw [convert_code_mk, if_neg h1, if_pos h2]
    show jsToPyReplacements (pyStrip c) = jsToPyReplacements c
    rw [h]
  · rw [convert_code_mk, if_neg h3, if_pos h4]
    show jsToPyReplacements (pyStrip c) = jsToPyReplacements c
    rw [h]

/-- Witness for C4 at the spec's own example input. -/
theorem convert_code_js_to_python_witness :
    (convert_code ⟨"js", "python", "console.log(true)"⟩).converted =
      jsToPyReplacements "console.log(true)" :=
  (convert_code_js_to_python "console.log(true)" (by decide)).2.1

/-- C9: `convert_code` strips the submitted code first, so every branch
computes from the stripped code: the same-language branch and the
unsupported-pair branch return it as is, and the two conversion branches
apply their replacement chains to it. -/
theorem convert_code_strips_code (s t c : String) :
    (pyLower s = pyLower t →
       (convert_code ⟨s, t, c⟩).converted = pyStrip c) ∧
    (pyLower s ≠ pyLower t →
      ((pyLower s = "javascript" ∨ pyLower s = "js") ∧
          pyLower t = "python" →
        (convert_code ⟨s, t, c⟩).converted = jsToPyReplacements (pyStrip c)) ∧
      (pyLower s = "python" ∧
          (pyLower t = "javascript" ∨ pyLower t = "js") →
        (convert_code ⟨s, t, c⟩).converted = pyToJsReplacements (pyStrip c)) ∧
      (¬ ((pyLower s = "javascript" ∨ pyLower s = "js") ∧
            pyLower t = "python") →
       ¬ (pyLower s = "python" ∧
            (pyLower t = "javascript" ∨ pyLower t = "js")) →
        (convert_code ⟨s, t, c⟩).converted = pyStrip c)) := by
  refine ⟨fun h => ?_,
    fun hne => ⟨fun hjp => ?_, fun hpj => ?_, fun h1 h2 => ?_⟩⟩
  · rw [convert_code_mk, if_pos h]
  · rw [convert_code_mk, if_neg hne, if_pos hjp]
  · have hnjp : ¬ ((pyLower s = "javascript" ∨ pyLower s = "js") ∧
        pyLower t = "python") := by
      rintro ⟨hc | hc, _⟩ <;> rw [hpj.1] at hc <;> exact absurd hc (by decide)
    rw [convert_code_mk, if_neg hne, if_neg hnjp, if_pos hpj]
  · rw [convert_code_mk, if_neg hne, if_neg h1, if_neg h2]

/-- Witness for C9: an unsupported pair with padded code returns the
stripped code. -/
theorem convert_code_strips_code_witness :
    (convert_code ⟨"ruby", "go", "  puts 1  "⟩).converted = "puts 1" := by
  have h := ((convert_code_strips_code "ruby" "go" "  puts 1  ").2
    (by decide)).2.2 (by decide) (by decide)
  rw [h]
  decide

/-! ### Mentor theorem -/

/-- C8: `ai_mentor` is deterministic in (language, level) and the
`question` field has no observable effect on the answer. -/
theorem ai_mentor_ignores_question (q q' : String) (lang : Option String)
    (lvl : Option MentorLevel) :
    ai_mentor ⟨q, lang, lvl⟩ = ai_mentor ⟨q', lang, lvl⟩ := rfl

/-! ### Rank theorems -/

theorem rankValue_rank_of_count (c : Nat) :
    rankValue (rank_of_count c) =
      if c ≥ 50 then 4 else if c ≥ 25 then 3 else if c ≥ 10 then 2
      else if c ≥ 3 then 1 else 0 := by
  unfold rank_of_count
  split_ifs <;> decide

/-- C1: the rank `get_progress` derives is the threshold chain's label
on the completed count, matches the table at each boundary, and is
monotone non-decreasing in the count. -/
theorem rank_of_count_boundaries_monotone :
    (∀ st u, (get_progress st u).rank =
        rank_of_count ((get_progress st u).completed)) ∧
    (rank_of_count 2 = "🎓 Newbie" ∧ rank_of_count 3 = "🥉 Bronze" ∧
     rank_of_count 9 = "🥉 Bronze" ∧ rank_of_count 10 = "🥈 Silver" ∧
     rank_of_count 24 = "🥈 Silver" ∧ rank_of_count 25 = "🥇 Gold" ∧
     rank_of_count 49 = "🥇 Gold" ∧ rank_of_count 50 = "🏆 Platinum") ∧
    (∀ c c', c ≤ c' →
       rankValue (rank_of_count c) ≤ rankValue (rank_of_count c')) := by
  refine ⟨fun st u => rfl, by decide, fun c c' hcc => ?_⟩
  rw [rankValue_rank_of_count, rankValue_rank_of_count]
  split_ifs <;> omega

/-- Witness for C1 at a concrete pair of counts. -/
theorem rank_of_count_monotone_witness :
    rankValue (rank_of_count 9) ≤ rankValue (rank_of_count 30) :=
  rank_of_count_boundaries_monotone.2.2 9 30 (by decide)

/-! ### Auth theorems -/

theorem find_one_user_append (a b : List UserDoc) (E : String) :
    find_one_user (a ++ b) E = (find_one_user a E).or (find_one_user b E) := by
  unfold find_one_user
  rw [List.find?_append]

theorem find_one_user_insert (s : List UserDoc) (doc : UserDoc) (E : String)
    (hf : find_one_user s E = none) (hd : doc.email = E) :
    find_one_user (s ++ [doc]) E = some doc := by
  rw [find_one_user_append, hf, Option.none_or]
  unfold find_one_user
  rw [List.find?_cons_of_pos _ (by simp [hd])]

/-- C5: signup on an already-present email returns the stored record's
id, name and email, discards the submitted name and provider, leaves the
store unmodified; and two sequential signups with the same email return
the same user_id. -/
theorem signup_existing_email (st : StoreState) (E : String)
    (u : UserDoc) (nm : String)
    (h : find_one_user st.users E = some u) (hn : u.name = some nm) :
    (∀ (now : Nat) (n pr : String),
        signup st now { name := n, email := E, provider := pr } =
          (st, { user_id := toString u.oid, name := nm, email := E })) ∧
    u.email = E ∧
    (∀ (s : StoreState) (m m' : Nat) (p q : SignupRequest),
        p.email = q.email →
        ((signup ((signup s m p).1) m' q).2).user_id =
          ((signup s m p).2).user_id) := by
  refine ⟨fun now n pr => ?_, ?_, fun s m m' p q hpq => ?_⟩
  · simp only [signup]
    rw [h]
    simp [hn]
  · unfold find_one_user at h
    have h2 := List.find?_some h
    simpa using h2
  · cases hf : find_one_user s.users p.email with
    | some ex =>
        have e1 : signup s m p =
            (s, { user_id := toString ex.oid,
                  name := ex.name.getD p.name, email := p.email }) := by
          simp only [signup, hf]
        have hq : find_one_user s.users q.email = some ex := by
          rw [← hpq]
          exact hf
        rw [e1]
        simp only [signup, hq]
    | none =>
        have e1 : signup s m p =
            ({ users := s.users ++
                          [{ oid := s.nextId, name := some p.name,
                             email := p.email, provider := p.provider,
                             created_at := m, updated_at := m }],
               progress := s.progress, nextId := s.nextId + 1 },
             { user_id := toString s.nextId, name := p.name,
               email := p.email }) := by
          simp only [signup, hf]
        have hqnone : find_one_user s.users q.email = none := by
          rw [← hpq]
          exact hf
        have e2 : find_one_user
            (s.users ++ [{ oid := s.nextId,
                           name := some p.name, email := p.email,
                           provider := p.provider,
                           created_at := m, updated_at := m }]) q.email =
            some { oid := s.nextId, name := some p.name, email := p.email,
                   provider := p.provider, created_at := m,
                   updated_at := m } :=
          find_one_user_insert _ _ _ hqnone hpq
        rw [e1]
        simp only [signup, e2]

/-- Witness for C5 at a one-user store: the submitted name and provider
are discarded and the stored record is returned with the store intact. -/
theorem signup_existing_email_witness :
    signup
      { users := [{ oid := 7, name := some "Ada", email := "a@b.c",
                    provider := "email", created_at := 0, updated_at := 0 }],
        progress := [], nextId := 8 } 1
      { name := "Zed", email := "a@b.c", provider := "google" } =
      ({ users := [{ oid := 7, name := some "Ada", email := "a@b.c",
                     provider := "email", created_at := 0, updated_at := 0 }],
         progress := [], nextId := 8 },
       { user_id := "7", name := "Ada", email := "a@b.c" }) := by
  have h := (signup_existing_email
    { users := [{ oid := 7, name := some "Ada", email := "a@b.c",
                  provider := "email", created_at := 0, updated_at := 0 }],
      progress := [], nextId := 8 } "a@b.c"
    { oid := 7, name := some "Ada", email := "a@b.c", provider := "email",
      created_at := 0, updated_at := 0 } "Ada" rfl rfl).1 1 "Zed" "google"
  exact h.trans (by decide)

/-- The user_id a login response carries, if the login succeeded. -/
def loginUserId : Except HTTPError AuthResponse → Option String
  | .ok r => some r.user_id
  | .error _ => none

/-- C7: login signals 404 exactly when no user matches the email; on a
match it returns the stored record's id, name and email (no credential
check exists); and login after signup returns the user_id signup
returned. -/
theorem login_spec (st : StoreState) (E : String) :
    (login st E =
        .error { status := 404,
                 detail := "User not found. Please sign up." } ↔
      find_one_user st.users E = none) ∧
    (∀ u nm, find_one_user st.users E = some u → u.name = some nm →
      login st E =
        .ok { user_id := toString u.oid, name := nm,
              email := E }) ∧
    (∀ (s : StoreState) (m : Nat) (p : SignupRequest),
      loginUserId (login (signup s m p).1 p.email) =
        some ((signup s m p).2.user_id)) := by
  refine ⟨?_, fun u nm hf hn => ?_, fun s m p => ?_⟩
  · cases hf : find_one_user st.users E with
    | none => simp [login, hf]
    | some u => simp [login, hf]
  · simp [login, hf, hn]
  · cases hf : find_one_user s.users p.email with
    | some ex =>
        have e1 : signup s m p =
            (s, { user_id := toString ex.oid,
                  name := ex.name.getD p.name, email := p.email }) := by
          simp only [signup, hf]
        rw [e1]
        simp [login, loginUserId, hf]
    | none =>
        have e1 : signup s m p =
            ({ users := s.users ++
                          [{ oid := s.nextId, name := some p.name,
                             email := p.email, provider := p.provider,
                             created_at := m, updated_at := m }],
               progress := s.progress, nextId := s.nextId + 1 },
             { user_id := toString s.nextId, name := p.name,
               email := p.email }) := by
          simp only [signup, hf]
        have e2 : find_one_user
            (s.users ++ [{ oid := s.nextId,
                           name := some p.name, email := p.email,
                           provider := p.provider,
                           created_at := m, updated_at := m }]) p.email =
            some { oid := s.nextId, name := some p.name, email := p.email,
                   provider := p.provider, created_at := m,
                   updated_at := m } :=
          find_one_user_insert _ _ _ hf rfl
        rw [e1]
        simp [login, loginUserId, e2]

/-- Witness for C7: an unknown email 404s on the empty store; after a
signup, login with the same email returns the user_id signup returned. -/
theorem login_spec_witness :
    login { users := [], progress := [], nextId := 0 } "x@y.z" =
      .error { status := 404,
               detail := "User not found. Please sign up." } ∧
    login { users := [{ oid := 7, name := some "Ada", email := "a@b.c",
                        provider := "email", created_at := 0,
                        updated_at := 0 }],
            progress := [], nextId := 8 } "a@b.c" =
      .ok { user_id := "7", name := "Ada", email := "a@b.c" } ∧
    loginUserId (login (signup { users := [], progress := [], nextId := 0 }
        0 { name := "Ada", email := "x@y.z", provider := "email" }).1
        "x@y.z") =
      some ((signup { users := [], progress := [], nextId := 0 }
        0 { name := "Ada", email := "x@y.z", provider := "email" }).2.user_id) := by
  refine ⟨(login_spec { users := [], progress := [], nextId := 0 }
      "x@y.z").1.mpr rfl, ?_, ?_⟩
  · have h := (login_spec
      { users := [{ oid := 7, name := some "Ada",
                    email := "a@b.c", provider := "email", created_at := 0,
                    updated_at := 0 }], progress := [], nextId := 8 }
      "a@b.c").2.1
      { oid := 7, name := some "Ada", email := "a@b.c", provider := "email",
        created_at := 0, updated_at := 0 } "Ada" rfl rfl
    exact h.trans (congrArg Except.ok (by decide))
  · exact (login_spec { users := [], progress := [], nextId := 0 }
      "x@y.z").2.2 { users := [], progress := [], nextId := 0 } 0
      { name := "Ada", email := "x@y.z", provider := "email" }

/-! ### Progress theorems -/

/-- C6 (amended): `update_progress` always inserts — two calls with an
identical payload append two distinct new entries — and a subsequent
`get_progress` counts both toward the completed total provided the user
held at most 498 matching entries beforehand (the listing is capped at
500 results, so beyond that the new entries fall outside the counted
window). -/
theorem update_progress_append_only (st : StoreState) (u c l : String)
    (h : (st.progress.filter (fun p => p.user_id = u)).length ≤ 498) :
    ((update_progress ((update_progress st ⟨u, c, l, true⟩).1)
        ⟨u, c, l, true⟩).1).progress =
      st.progress ++ [⟨st.nextId, u, c, l, true⟩,
        ⟨st.nextId + 1, u, c, l, true⟩] ∧
    (⟨st.nextId, u, c, l, true⟩ : ProgressDoc) ≠
      ⟨st.nextId + 1, u, c, l, true⟩ ∧
    (get_progress ((update_progress ((update_progress st ⟨u, c, l, true⟩).1)
        ⟨u, c, l, true⟩).1) u).completed =
      (get_progress st u).completed + 2 := by
  have e2 : ((update_progress ((update_progress st ⟨u, c, l, true⟩).1)
      ⟨u, c, l, true⟩).1).progress =
      (st.progress ++ [⟨st.nextId, u, c, l, true⟩]) ++
        [⟨st.nextId + 1, u, c, l, true⟩] := rfl
  refine ⟨?_, ?_, ?_⟩
  · rw [e2, List.append_assoc]
    rfl
  · intro hc
    have h2 : st.nextId = st.nextId + 1 := congrArg ProgressDoc.oid hc
    omega
  · simp only [get_progress, get_documents_progress]
    rw [e2, List.filter_append, List.filter_append]
    have f0 : List.filter (fun p : ProgressDoc => p.user_id = u)
        [⟨st.nextId, u, c, l, true⟩] = [⟨st.nextId, u, c, l, true⟩] := by
      simp
    have f1 : List.filter (fun p : ProgressDoc => p.user_id = u)
        [⟨st.nextId + 1, u, c, l, true⟩] =
          [⟨st.nextId + 1, u, c, l, true⟩] := by
      simp
    rw [f0, f1, List.append_assoc]
    have hlen : ((st.progress.filter (fun p : ProgressDoc => p.user_id = u)) ++
        (([⟨st.nextId, u, c, l, true⟩] : List ProgressDoc) ++
          ([⟨st.nextId + 1, u, c, l, true⟩] : List ProgressDoc))).length ≤ 500 := by
      simp only [List.length_append, List.length_cons, List.length_nil]
      omega
    rw [List.take_of_length_le hlen,
        List.take_of_length_le (le_trans h (by omega)),
        List.countP_append]
    simp

/-- Witness for C6 (amended) from the empty store. -/
theorem update_progress_append_only_witness :
    (get_progress ((update_progress ((update_progress
        { users := [], progress := [], nextId := 0 } ⟨"u", "c", "l", true⟩).1)
        ⟨"u", "c", "l", true⟩).1) "u").completed =
      (get_progress { users := [], progress := [], nextId := 0 }
        "u").completed + 2 :=
  (update_progress_append_only { users := [], progress := [], nextId := 0 }
    "u" "c" "l" (by decide)).2.2

set_option maxRecDepth 8000 in
/-- C6 counterexample: with 499 pre-existing completed entries for the
user, the 500-result listing cap lets `get_progress` count only one of
the two newly inserted entries — the completed total becomes 500, not
499 + 2. -/
theorem update_progress_cap_counterexample :
    (get_progress ((update_progress ((update_progress
        { users := [],
          progress := List.replicate 499 ⟨0, "u", "c", "l", true⟩,
          nextId := 500 } ⟨"u", "c", "l", true⟩).1)
        ⟨"u", "c", "l", true⟩).1) "u").completed ≠
      (get_progress
        { users := [],
          progress := List.replicate 499 ⟨0, "u", "c", "l", true⟩,
          nextId := 500 } "u").completed + 2 := by
  decide

end DevLearn
